import Mathlib

/-!
Verification development for the resume-parsing pipeline in
`src/application/parser.py` (class `OptimizedResumeParser`).

The Python code manipulates JSON-like values (the output of `json.loads`)
stored in insertion-ordered dictionaries.  We embed those values as the
inductive type `JVal`, dictionaries as association lists with
Python-dictionary update semantics (`dictSet` updates the value in place
for an existing key and appends new keys at the end), and fallible Python
code (code that can raise) as `Except PyErr`.

All string operations are modelled on the underlying character lists
(`String.data`), mirroring CPython semantics for `str.strip`,
`str.lower`, `str.startswith`, the `in` substring test, slicing and
`str.split`.
-/

namespace ResumeParser

/-- A Python exception kind, as far as the claims need to distinguish it. -/
inductive PyErr where
  | attributeError
  | typeError
  deriving DecidableEq

/-- Diagnostic text attached to an exception; the pipeline only ever embeds
it into the `error` field of the fallback record, so a short tag suffices. -/
def pyErrMsg : PyErr → String
  | PyErr.attributeError => "AttributeError"
  | PyErr.typeError => "TypeError"

/-- A JSON value as produced by Python `json.loads`.  Numbers are modelled
as integers; fractional literals are not modelled (no claim involves
them), so the embedded JSON reader rejects them. -/
inductive JVal where
  | null
  | bool (b : Bool)
  | num (n : Int)
  | str (s : String)
  | arr (elems : List JVal)
  | obj (entries : List (String × JVal))

/-- A Python dictionary with string keys, in insertion order. -/
abbrev Dict := List (String × JVal)

/-- Python `d.get(k)`: the value at the first matching key, if any. -/
def dictGet : Dict → String → Option JVal
  | [], _ => none
  | (k1, v1) :: rest, k => if k1 = k then some v1 else dictGet rest k

/-- Python `d.get(k, dflt)`. -/
def dictGetD (d : Dict) (k : String) (dflt : JVal) : JVal :=
  (dictGet d k).getD dflt

/-- Python `d[k] = v`: update in place when the key exists, append at the
end otherwise. -/
def dictSet : Dict → String → JVal → Dict
  | [], k, v => [(k, v)]
  | (k1, v1) :: rest, k, v =>
    if k1 = k then (k, v) :: rest else (k1, v1) :: dictSet rest k v

/-- Python `k in d`. -/
def dictHas (d : Dict) (k : String) : Bool :=
  (dictGet d k).isSome

/-- Python truthiness of a JSON value (`bool(v)`). -/
def pyTruthy : JVal → Bool
  | JVal.null => false
  | JVal.bool b => b
  | JVal.num n => decide (n ≠ 0)
  | JVal.str s => !s.data.isEmpty
  | JVal.arr xs => !xs.isEmpty
  | JVal.obj kvs => !kvs.isEmpty

mutual

/-- Python `repr` restricted to JSON values (escape sequences inside string
reprs are not reproduced; only the digit content matters downstream). -/
def pyRepr : JVal → String
  | JVal.null => "None"
  | JVal.bool true => "True"
  | JVal.bool false => "False"
  | JVal.num n => toString n
  | JVal.str s => "\x27" ++ s ++ "\x27"
  | JVal.arr xs => "[" ++ String.intercalate ", " (pyReprList xs) ++ "]"
  | JVal.obj kvs => "\x7b" ++ String.intercalate ", " (pyReprPairs kvs) ++ "\x7d"

/-- `pyRepr` mapped over array elements. -/
def pyReprList : List JVal → List String
  | [] => []
  | v :: vs => pyRepr v :: pyReprList vs

/-- `pyRepr` mapped over object entries. -/
def pyReprPairs : List (String × JVal) → List String
  | [] => []
  | (k, v) :: rest => ("\x27" ++ k ++ "\x27: " ++ pyRepr v) :: pyReprPairs rest

end

/-- Python `str(v)` for a JSON value. -/
def pyStr (v : JVal) : String :=
  match v with
  | JVal.str s => s
  | _ => pyRepr v

/-- Python `s.strip()` on a character list: drop leading and trailing
whitespace. -/
def trimChars (l : List Char) : List Char :=
  ((l.dropWhile Char.isWhitespace).reverse.dropWhile Char.isWhitespace).reverse

/-- Python `s.strip()`. -/
def pyStrip (s : String) : String :=
  String.mk (trimChars s.data)

/-- Python `s.lower()` (ASCII letters; resume keywords are ASCII). -/
def pyLower (s : String) : String :=
  String.mk (s.data.map Char.toLower)

/-- Python `pre in hay` substring test on character lists. -/
def listContainsSub (hay pat : List Char) : Bool :=
  (List.range (hay.length + 1)).any fun i => pat.isPrefixOf (hay.drop i)

/-- Python `s.startswith(pre)`. -/
def pyStartswith (s pre : String) : Bool :=
  pre.data.isPrefixOf s.data

/-- Python `s[n:]` on a character list. -/
def dropChars (l : List Char) (n : Nat) : List Char :=
  l.drop n

/-- Python `s[:-n]` on a character list. -/
def dropRightChars (l : List Char) (n : Nat) : List Char :=
  l.take (l.length - n)

/-- Python `text.split(sep)` for a one-character separator: empty pieces
are kept and the result is never empty. -/
def splitLines : List Char → List (List Char)
  | [] => [[]]
  | c :: cs =>
    if c = '\n' then [] :: splitLines cs
    else
      match splitLines cs with
      | [] => [[c]]
      | l :: ls => (c :: l) :: ls

/-! ## `validate_and_format_contact` (parser.py lines 76-100)

The Python method is annotated `str -> str` but is invoked on whatever
JSON value sits under `contactno`; `if not contact_no` is truthiness and
`str(contact_no)` stringifies, so the embedding takes a `JVal`. -/

/-- parser.py 76-100: strip non-digits from `str(contact_no)`; keep a
10-digit result, drop the leading zero of an 11-digit result starting
with `0`, and return `""` in every other case (including falsy input). -/
def validate_and_format_contact (contact_no : JVal) : String :=
  if pyTruthy contact_no = false then ""
  else
    let digits_only := (pyStr contact_no).data.filter Char.isDigit
    if digits_only.length = 10 then String.mk digits_only
    else if digits_only.length = 11 ∧ digits_only.head? = some '0' then
      String.mk (digits_only.drop 1)
    else ""

/-! ## `validate_and_set_defaults` (parser.py lines 102-116) -/

/-- The city/country rule at parser.py 110-114: when the value is falsy
(absent, `None`, `""`, `0`, `[]`, ...) or a whitespace-only string, set
the sentinel `"-"`; a truthy non-string raises `AttributeError` because
the code calls `.strip()` on it. -/
def fixLoc (d : Dict) (k : String) : Except PyErr Dict :=
  match dictGet d k with
  | none => Except.ok (dictSet d k (JVal.str "-"))
  | some v =>
    if pyTruthy v = false then Except.ok (dictSet d k (JVal.str "-"))
    else
      match v with
      | JVal.str s =>
        if trimChars s.data = [] then Except.ok (dictSet d k (JVal.str "-"))
        else Except.ok d
      | _ => Except.error PyErr.attributeError

/-- parser.py 102-116: reformat `contactno`, then apply the city and
country sentinel rules in that order. -/
def validate_and_set_defaults (resume_data : Dict) : Except PyErr Dict :=
  match fixLoc (dictSet resume_data "contactno"
      (JVal.str (validate_and_format_contact
        (dictGetD resume_data "contactno" (JVal.str ""))))) "city" with
  | Except.error e => Except.error e
  | Except.ok d2 =>
    match fixLoc d2 "country" with
    | Except.error e => Except.error e
    | Except.ok d3 => Except.ok d3

/-! ## Key repair loop of `query_resume_fast` (parser.py lines 263-277) -/

/-- parser.py 264: the declared scalar fields. -/
def profile_fields : List String :=
  ["firstname", "lastname", "email", "contactno", "country", "city"]

/-- parser.py 270-277: the declared array fields. -/
def array_fields : List String :=
  ["certificates", "education", "extracurriculars", "jobs"]

/-- One iteration of `if field not in resume: resume[field] = dflt`. -/
def ensureKey (d : Dict) (k : String) (dflt : JVal) : Dict :=
  if dictHas d k then d else dictSet d k dflt

/-- parser.py 263-277: default every missing scalar field to `""` and
every missing array field to `[]`. -/
def repairKeys (resume : Dict) : Dict :=
  ensureKey (ensureKey (ensureKey (ensureKey
    (profile_fields.foldl (fun d f => ensureKey d f (JVal.str "")) resume)
    "certificates" (JVal.arr [])) "education" (JVal.arr []))
    "extracurriculars" (JVal.arr [])) "jobs" (JVal.arr [])

/-- The normalization step claims C2/C3/C7 talk about: the key-repair loop
followed by `validate_and_set_defaults` (parser.py 263-280). -/
def normalizeStep (resume : Dict) : Except PyErr Dict :=
  validate_and_set_defaults (repairKeys resume)

/-! ## `preprocess_resume_text` (parser.py lines 184-221) -/

/-- parser.py 189-193: the section-header keywords. -/
def importantSections : List String :=
  ["education", "experience", "work", "employment", "projects",
   "skills", "contact", "email", "phone", "address", "certificates",
   "certifications", "extracurricular", "activities", "volunteer"]

/-- parser.py 203: the contact markers. -/
def contactMarkers : List String :=
  ["@", "phone", "email", "linkedin", "github"]

/-- The line loop of parser.py 199-219, with the
`current_section_important` flag threaded explicitly. -/
def keepLines : Bool → List (List Char) → List (List Char)
  | _, [] => []
  | flag, line :: rest =>
    let ll := trimChars (line.map Char.toLower)
    if contactMarkers.any (fun k => listContainsSub ll k.data) then
      line :: keepLines flag rest
    else if importantSections.any (fun k => listContainsSub ll k.data) then
      line :: keepLines true rest
    else if flag && !(trimChars line).isEmpty then
      line :: keepLines flag rest
    else
      keepLines (if (trimChars line).isEmpty then false else flag) rest

/-- parser.py 184-221: split on newlines, run the keep/flag loop starting
with the flag false, and rejoin with newlines. -/
def preprocess_resume_text (text : String) : String :=
  String.mk (List.intercalate ['\n'] (keepLines false (splitLines text.data)))

/-! ## Model of Python `json.loads` (strict mode)

Used at parser.py line 260.  A fuelled recursive-descent reader over the
character list: JSON whitespace, objects (duplicate keys resolved Python
style through `dictSet`, last value wins at the first key position),
arrays, strings with the single-character escapes, integers (leading
zeros rejected as in strict JSON; fractional and exponent literals are
outside the model and rejected), and the three literals.  `json.loads`
requires the whole input to be consumed up to trailing whitespace. -/

/-- The left-brace character, `\x7b`. -/
def lbraceC : Char := Char.ofNat 123

/-- The right-brace character, `\x7d`. -/
def rbraceC : Char := Char.ofNat 125

/-- JSON whitespace. -/
def jsonWs (c : Char) : Bool :=
  c = ' ' || c = '\t' || c = '\n' || c = '\r'

/-- Drop leading JSON whitespace. -/
def skipWs : List Char → List Char
  | [] => []
  | c :: cs => if jsonWs c then skipWs cs else c :: cs

/-- Decode a one-character escape sequence. -/
def escChar (e : Char) : Option Char :=
  if e = '"' then some '"'
  else if e = '\\' then some '\\'
  else if e = '/' then some '/'
  else if e = 'b' then some (Char.ofNat 8)
  else if e = 'f' then some (Char.ofNat 12)
  else if e = 'n' then some '\n'
  else if e = 'r' then some '\r'
  else if e = 't' then some '\t'
  else none

/-- Read a JSON string body after the opening quote, returning the body
and the remaining input after the closing quote. -/
def readStr (fuel : Nat) : List Char → Option (List Char × List Char) :=
  match fuel with
  | 0 => fun _ => none
  | fuel + 1 => fun cs =>
    match cs with
    | [] => none
    | c :: cs1 =>
      if c = '"' then some ([], cs1)
      else if c = '\\' then
        match cs1 with
        | [] => none
        | e :: cs2 =>
          match escChar e with
          | none => none
          | some ch =>
            match readStr fuel cs2 with
            | none => none
            | some (body, rest) => some (ch :: body, rest)
      else
        match readStr fuel cs1 with
        | none => none
        | some (body, rest) => some (c :: body, rest)

/-- Numeric value of a decimal digit list. -/
def natOfDigits (ds : List Char) : Nat :=
  ds.foldl (fun acc c => acc * 10 + (c.toNat - 48)) 0

/-- Read an unsigned JSON integer: at least one digit, no redundant
leading zero, and no fractional or exponent continuation. -/
def readNatTok (cs : List Char) : Option (Nat × List Char) :=
  let ds := cs.takeWhile Char.isDigit
  let rest := cs.dropWhile Char.isDigit
  if ds.isEmpty then none
  else if 1 < ds.length ∧ ds.head? = some '0' then none
  else
    match rest with
    | c :: _ =>
      if c = '.' || c = 'e' || c = 'E' then none else some (natOfDigits ds, rest)
    | [] => some (natOfDigits ds, rest)

/-- Read a JSON number with optional leading minus. -/
def readNum (cs : List Char) : Option (JVal × List Char) :=
  match cs with
  | '-' :: rest =>
    (readNatTok rest).map fun p => (JVal.num (-(p.1 : Int)), p.2)
  | _ =>
    (readNatTok cs).map fun p => (JVal.num (p.1 : Int), p.2)

/-- Read a fixed keyword (`true`, `false`, `null`). -/
def readKeyword (lit : List Char) (v : JVal) (cs : List Char) : Option (JVal × List Char) :=
  if lit.isPrefixOf cs then some (v, cs.drop lit.length) else none

/-- What the reader is currently reading: a value, the members of an
object after the opening brace, or the elements of an array after the
opening bracket.  A single mode-indexed function keeps the recursion
structural on the fuel, so closed inputs evaluate by `rfl`. -/
inductive RMode where
  | val
  | objRest (acc : Dict)
  | arrRest (acc : List JVal)

/-- Read one JSON value (mode `val`), or the remainder of an object or
array (the other modes). -/
def readCore (fuel : Nat) : RMode → List Char → Option (JVal × List Char) :=
  match fuel with
  | 0 => fun _ _ => none
  | fuel + 1 => fun mode cs =>
    match mode with
    | RMode.val =>
      match skipWs cs with
      | [] => none
      | c :: rest =>
        if c = lbraceC then readCore fuel (RMode.objRest []) rest
        else if c = '[' then readCore fuel (RMode.arrRest []) rest
        else if c = '"' then
          match readStr (rest.length + 1) rest with
          | none => none
          | some (body, r) => some (JVal.str (String.mk body), r)
        else if c = 't' then readKeyword ['t', 'r', 'u', 'e'] (JVal.bool true) (c :: rest)
        else if c = 'f' then readKeyword ['f', 'a', 'l', 's', 'e'] (JVal.bool false) (c :: rest)
        else if c = 'n' then readKeyword ['n', 'u', 'l', 'l'] JVal.null (c :: rest)
        else readNum (c :: rest)
    | RMode.objRest acc =>
      match skipWs cs with
      | [] => none
      | c :: rest =>
        if c = rbraceC && acc.isEmpty then some (JVal.obj [], rest)
        else if c = '"' then
          match readStr (rest.length + 1) rest with
          | none => none
          | some (key, afterKey) =>
            match skipWs afterKey with
            | ':' :: afterColon =>
              match readCore fuel RMode.val afterColon with
              | none => none
              | some (v, afterVal) =>
                let acc2 := dictSet acc (String.mk key) v
                match skipWs afterVal with
                | ',' :: afterComma => readCore fuel (RMode.objRest acc2) afterComma
                | c2 :: afterClose =>
                  if c2 = rbraceC then some (JVal.obj acc2, afterClose) else none
                | [] => none
            | _ => none
        else none
    | RMode.arrRest acc =>
      match skipWs cs with
      | [] => none
      | c :: rest =>
        if c = ']' && acc.isEmpty then some (JVal.arr [], rest)
        else
          match readCore fuel RMode.val (c :: rest) with
          | none => none
          | some (v, afterVal) =>
            match skipWs afterVal with
            | ',' :: afterComma => readCore fuel (RMode.arrRest (acc ++ [v])) afterComma
            | c2 :: afterClose =>
              if c2 = ']' then some (JVal.arr (acc ++ [v]), afterClose) else none
            | [] => none

/-- Python `json.loads` on the model: read one value and require only
whitespace to remain. -/
def jsonParse (s : String) : Option JVal :=
  match readCore (4 * s.data.length + 8) RMode.val s.data with
  | none => none
  | some (v, rest) => if (skipWs rest).isEmpty then some v else none

/-! ## The decode step of `query_resume_fast` (parser.py lines 251-315) -/

/-- parser.py 254-258: trim, then strip a leading code fence (with or
without the `json` language tag) by fixed-width slicing `[7:-3]` or
`[3:-3]`; there is no check for a closing fence. -/
def stripFences (t : String) : String :=
  if pyStartswith t "```json" then String.mk (dropRightChars (dropChars t.data 7) 3)
  else if pyStartswith t "```" then String.mk (dropRightChars (dropChars t.data 3) 3)
  else t

/-- parser.py 286-297: the shell record built when `json.loads` fails. -/
def shellRecord : Dict :=
  [("firstname", JVal.str ""), ("lastname", JVal.str ""), ("email", JVal.str ""),
   ("contactno", JVal.str ""), ("country", JVal.str "-"), ("city", JVal.str "-"),
   ("certificates", JVal.arr []), ("education", JVal.arr []),
   ("extracurriculars", JVal.arr []), ("jobs", JVal.arr [])]

/-- parser.py 303-315: the shell record plus the `error` field, built by
the outer exception handler. -/
def errorShell (e : PyErr) : Dict :=
  dictSet shellRecord "error" (JVal.str (pyErrMsg e))

/-- parser.py 252-297 (step 5): trim and strip fences, parse JSON, repair
keys and apply defaults.  A parse failure is absorbed into the shell
record by the inner `except json.JSONDecodeError`.  A successful parse
that is not an object raises `TypeError` in the key-repair loop, and a
truthy non-string city or country raises `AttributeError`; both escape
the inner handler. -/
def coreDecode (raw : String) : Except PyErr Dict :=
  match jsonParse (stripFences (pyStrip raw)) with
  | none => Except.ok shellRecord
  | some (JVal.obj resume) => normalizeStep resume
  | some _ => Except.error PyErr.typeError

/-- parser.py 149-182: the completion call returns the gateway string, or
the literal `"\x7b\x7d"` when the gateway raised. -/
def query_completion_optimized (gateway : Except PyErr String) : String :=
  match gateway with
  | Except.ok s => s
  | Except.error _ => "\x7b\x7d"

/-- parser.py 223-315: the whole pipeline, parameterised by the outcome
of the PDF extraction steps (lines 229-243, which may raise) and of the
completion gateway.  The outer `except Exception` converts every
internal failure into the shell record with an `error` field. -/
def query_resume_fast (extraction : Except PyErr String) (gateway : Except PyErr String) : Dict :=
  match extraction with
  | Except.error e => errorShell e
  | Except.ok _ =>
    match coreDecode (query_completion_optimized gateway) with
    | Except.ok resume => resume
    | Except.error e => errorShell e

/-- All declared fields of the Variant-B record. -/
def allFields : List String := profile_fields ++ array_fields

/-! ## Dictionary lemmas -/

theorem dictGet_set_self (d : Dict) (k : String) (v : JVal) :
    dictGet (dictSet d k v) k = some v := by
  induction d with
  | nil => simp [dictSet, dictGet]
  | cons hd tl ih =>
    obtain ⟨k1, v1⟩ := hd
    by_cases h : k1 = k
    · simp [dictSet, dictGet, h]
    · simp [dictSet, dictGet, h, ih]

theorem dictGet_set_ne (d : Dict) (k k' : String) (v : JVal) (h : k ≠ k') :
    dictGet (dictSet d k v) k' = dictGet d k' := by
  induction d with
  | nil => simp [dictSet, dictGet, h]
  | cons hd tl ih =>
    obtain ⟨k1, v1⟩ := hd
    by_cases h1 : k1 = k
    · subst h1
      simp [dictSet, dictGet, h]
    · simp [dictSet, dictGet, h1, ih]

theorem dictSet_self (d : Dict) (k : String) (v : JVal)
    (h : dictGet d k = some v) : dictSet d k v = d := by
  induction d with
  | nil => simp [dictGet] at h
  | cons hd tl ih =>
    obtain ⟨k1, v1⟩ := hd
    by_cases h1 : k1 = k
    · subst h1
      simp [dictGet] at h
      simp [dictSet, h]
    · simp [dictGet, h1] at h
      simp [dictSet, h1, ih h]

theorem dictHas_of_get (d : Dict) (k : String) (v : JVal)
    (h : dictGet d k = some v) : dictHas d k = true := by
  simp [dictHas, h]

theorem dictHas_set_self (d : Dict) (k : String) (v : JVal) :
    dictHas (dictSet d k v) k = true := by
  simp [dictHas, dictGet_set_self]

theorem dictHas_set_ne (d : Dict) (k k' : String) (v : JVal) (h : k ≠ k') :
    dictHas (dictSet d k v) k' = dictHas d k' := by
  simp [dictHas, dictGet_set_ne d k k' v h]

/-! ## `trimChars` lemmas -/

theorem mem_of_mem_dropWhile (p : Char → Bool) (l : List Char) (c : Char)
    (h : c ∈ l.dropWhile p) : c ∈ l := by
  induction l with
  | nil => simp at h
  | cons a as ih =>
    rw [List.dropWhile_cons] at h
    by_cases hp : p a
    · simp only [hp, if_true] at h
      exact List.mem_cons_of_mem a (ih h)
    · simp only [hp, if_false] at h
      exact h

theorem trimChars_eq_nil_iff (l : List Char) :
    trimChars l = [] ↔ ∀ c ∈ l, c.isWhitespace = true := by
  unfold trimChars
  rw [List.reverse_eq_nil_iff, List.dropWhile_eq_nil_iff]
  constructor
  · intro h c hc
    have hsplit : l.takeWhile Char.isWhitespace ++ l.dropWhile Char.isWhitespace = l :=
      List.takeWhile_append_dropWhile Char.isWhitespace l
    rw [← hsplit] at hc
    rcases List.mem_append.mp hc with h1 | h1
    · exact List.mem_takeWhile_imp h1
    · exact h c (List.mem_reverse.mpr h1)
  · intro h c hc
    exact h c (mem_of_mem_dropWhile Char.isWhitespace l c (List.mem_reverse.mp hc))

theorem trimChars_map_toLower_eq_nil (l : List Char) (h : trimChars l = []) :
    trimChars (l.map Char.toLower) = [] := by
  rw [trimChars_eq_nil_iff] at h ⊢
  intro c hc
  rcases List.mem_map.mp hc with ⟨c0, hc0, rfl⟩
  have hw := h c0 hc0
  have hlc : Char.toLower c0 = c0 := by
    simp only [Char.isWhitespace] at hw
    simp only [Bool.or_eq_true, decide_eq_true_eq] at hw
    rcases hw with ((h1 | h1) | h1) | h1 <;> (subst h1; decide)
  rw [hlc]
  exact h c0 hc0

/-! ## `validate_and_format_contact` lemmas -/

theorem mk_data (s : String) : String.mk s.data = s := rfl

theorem vfc_cases (v : JVal) :
    validate_and_format_contact v = "" ∨
    ((validate_and_format_contact v).data.length = 10 ∧
      ∀ c ∈ (validate_and_format_contact v).data, c.isDigit = true) := by
  have hv : validate_and_format_contact v =
      (if pyTruthy v = false then ""
       else if ((pyStr v).data.filter Char.isDigit).length = 10 then
         String.mk ((pyStr v).data.filter Char.isDigit)
       else if ((pyStr v).data.filter Char.isDigit).length = 11 ∧
           ((pyStr v).data.filter Char.isDigit).head? = some '0' then
         String.mk (((pyStr v).data.filter Char.isDigit).drop 1)
       else "") := rfl
  by_cases h1 : pyTruthy v = false
  · rw [hv, if_pos h1]
    exact Or.inl rfl
  · rw [hv, if_neg h1]
    by_cases h2 : ((pyStr v).data.filter Char.isDigit).length = 10
    · rw [if_pos h2]
      exact Or.inr ⟨h2, fun c hc => List.of_mem_filter hc⟩
    · rw [if_neg h2]
      by_cases h3 : ((pyStr v).data.filter Char.isDigit).length = 11 ∧
          ((pyStr v).data.filter Char.isDigit).head? = some '0'
      · rw [if_pos h3]
        refine Or.inr ⟨?_, fun c hc => List.of_mem_filter (List.mem_of_mem_drop hc)⟩
        show (((pyStr v).data.filter Char.isDigit).drop 1).length = 10
        rw [List.length_drop, h3.1]
      · rw [if_neg h3]
        exact Or.inl rfl

theorem vfc_idem (v : JVal) :
    validate_and_format_contact (JVal.str (validate_and_format_contact v)) =
      validate_and_format_contact v := by
  rcases vfc_cases v with h | ⟨hlen, hdig⟩
  · rw [h]
    rfl
  · set r := validate_and_format_contact v with hr
    have hne : r.data ≠ [] := by
      intro h0
      rw [h0] at hlen
      simp at hlen
    have htr : ¬pyTruthy (JVal.str r) = false := by
      simp [pyTruthy, List.isEmpty_iff, hne]
    have hfil : r.data.filter Char.isDigit = r.data :=
      List.filter_eq_self.mpr hdig
    show (if pyTruthy (JVal.str r) = false then ""
      else
        if ((pyStr (JVal.str r)).data.filter Char.isDigit).length = 10 then
          String.mk ((pyStr (JVal.str r)).data.filter Char.isDigit)
        else if ((pyStr (JVal.str r)).data.filter Char.isDigit).length = 11 ∧
            ((pyStr (JVal.str r)).data.filter Char.isDigit).head? = some '0' then
          String.mk (((pyStr (JVal.str r)).data.filter Char.isDigit).drop 1)
        else "") = r
    have hps : pyStr (JVal.str r) = r := rfl
    rw [if_neg htr, hps, hfil, if_pos hlen]

/-! ## `fixLoc` lemmas -/

/-- The city/country value is absent, a string, or falsy: the exact
domain on which the `.strip()` call cannot raise. -/
def strOrFalsy (o : Option JVal) : Bool :=
  match o with
  | none => true
  | some (JVal.str _) => true
  | some v => !pyTruthy v

theorem fixLoc_eq_none (d : Dict) (k : String) (hg : dictGet d k = none) :
    fixLoc d k = Except.ok (dictSet d k (JVal.str "-")) := by
  unfold fixLoc
  rw [hg]

theorem fixLoc_eq_some (d : Dict) (k : String) (v : JVal) (hg : dictGet d k = some v) :
    fixLoc d k =
      (if pyTruthy v = false then Except.ok (dictSet d k (JVal.str "-"))
       else
         match v with
         | JVal.str s =>
           if trimChars s.data = [] then Except.ok (dictSet d k (JVal.str "-"))
           else Except.ok d
         | _ => Except.error PyErr.attributeError) := by
  unfold fixLoc
  rw [hg]

theorem fixLoc_default (d : Dict) (k : String)
    (h : dictGet d k = none ∨ ∃ v, dictGet d k = some v ∧ pyTruthy v = false) :
    fixLoc d k = Except.ok (dictSet d k (JVal.str "-")) := by
  rcases h with h | ⟨v, hg, ht⟩
  · exact fixLoc_eq_none d k h
  · rw [fixLoc_eq_some d k v hg, if_pos ht]

theorem fixLoc_blankstr (d : Dict) (k : String) (s : String)
    (hg : dictGet d k = some (JVal.str s)) (hs : trimChars s.data = []) :
    fixLoc d k = Except.ok (dictSet d k (JVal.str "-")) := by
  rw [fixLoc_eq_some d k (JVal.str s) hg]
  by_cases ht : pyTruthy (JVal.str s) = false
  · rw [if_pos ht]
  · rw [if_neg ht]
    show (if trimChars s.data = [] then Except.ok (dictSet d k (JVal.str "-"))
      else Except.ok d) = _
    rw [if_pos hs]

theorem fixLoc_fixed (d : Dict) (k : String) (s : String)
    (hg : dictGet d k = some (JVal.str s)) (hs : trimChars s.data ≠ []) :
    fixLoc d k = Except.ok d := by
  have hne : s.data ≠ [] := by
    intro h0
    exact hs (by rw [h0]; rfl)
  have ht : ¬pyTruthy (JVal.str s) = false := by
    simp [pyTruthy, List.isEmpty_iff, hne]
  rw [fixLoc_eq_some d k (JVal.str s) hg, if_neg ht]
  show (if trimChars s.data = [] then Except.ok (dictSet d k (JVal.str "-"))
    else Except.ok d) = _
  rw [if_neg hs]

theorem fixLoc_ok_shape (d d' : Dict) (k : String) (h : fixLoc d k = Except.ok d') :
    (∃ s, dictGet d' k = some (JVal.str s) ∧ trimChars s.data ≠ []) ∧
    ∀ k', k' ≠ k → dictGet d' k' = dictGet d k' := by
  cases hg : dictGet d k with
  | none =>
    rw [fixLoc_eq_none d k hg] at h
    simp only [Except.ok.injEq] at h
    subst h
    refine ⟨⟨"-", dictGet_set_self d k (JVal.str "-"), by decide⟩, fun k' hk' => ?_⟩
    exact dictGet_set_ne d k k' (JVal.str "-") (Ne.symm hk')
  | some v =>
    rw [fixLoc_eq_some d k v hg] at h
    by_cases ht : pyTruthy v = false
    · rw [if_pos ht] at h
      simp only [Except.ok.injEq] at h
      subst h
      refine ⟨⟨"-", dictGet_set_self d k (JVal.str "-"), by decide⟩, fun k' hk' => ?_⟩
      exact dictGet_set_ne d k k' (JVal.str "-") (Ne.symm hk')
    · rw [if_neg ht] at h
      cases v with
      | str s =>
        by_cases hs : trimChars s.data = []
        · rw [show (match JVal.str s with
              | JVal.str s =>
                if trimChars s.data = [] then Except.ok (dictSet d k (JVal.str "-"))
                else Except.ok d
              | _ => (Except.error PyErr.attributeError : Except PyErr Dict)) =
              (if trimChars s.data = [] then Except.ok (dictSet d k (JVal.str "-"))
               else Except.ok d) from rfl, if_pos hs] at h
          simp only [Except.ok.injEq] at h
          subst h
          refine ⟨⟨"-", dictGet_set_self d k (JVal.str "-"), by decide⟩, fun k' hk' => ?_⟩
          exact dictGet_set_ne d k k' (JVal.str "-") (Ne.symm hk')
        · rw [show (match JVal.str s with
              | JVal.str s =>
                if trimChars s.data = [] then Except.ok (dictSet d k (JVal.str "-"))
                else Except.ok d
              | _ => (Except.error PyErr.attributeError : Except PyErr Dict)) =
              (if trimChars s.data = [] then Except.ok (dictSet d k (JVal.str "-"))
               else Except.ok d) from rfl, if_neg hs] at h
          simp only [Except.ok.injEq] at h
          subst h
          exact ⟨⟨s, hg, hs⟩, fun k' _ => rfl⟩
      | null => simp at h
      | bool b => simp at h
      | num n => simp at h
      | arr xs => simp at h
      | obj kvs => simp at h

theorem fixLoc_ok_of (d : Dict) (k : String) (h : strOrFalsy (dictGet d k) = true) :
    ∃ d2, fixLoc d k = Except.ok d2 := by
  cases hg : dictGet d k with
  | none => exact ⟨_, fixLoc_default d k (Or.inl hg)⟩
  | some v =>
    cases v with
    | str s =>
      by_cases hs : trimChars s.data = []
      · exact ⟨_, fixLoc_blankstr d k s hg hs⟩
      · exact ⟨_, fixLoc_fixed d k s hg hs⟩
    | null =>
      rw [hg] at h
      simp only [strOrFalsy, Bool.not_eq_true'] at h
      exact ⟨_, fixLoc_default d k (Or.inr ⟨_, hg, h⟩)⟩
    | bool b =>
      rw [hg] at h
      simp only [strOrFalsy, Bool.not_eq_true'] at h
      exact ⟨_, fixLoc_default d k (Or.inr ⟨_, hg, h⟩)⟩
    | num n =>
      rw [hg] at h
      simp only [strOrFalsy, Bool.not_eq_true'] at h
      exact ⟨_, fixLoc_default d k (Or.inr ⟨_, hg, h⟩)⟩
    | arr xs =>
      rw [hg] at h
      simp only [strOrFalsy, Bool.not_eq_true'] at h
      exact ⟨_, fixLoc_default d k (Or.inr ⟨_, hg, h⟩)⟩
    | obj kvs =>
      rw [hg] at h
      simp only [strOrFalsy, Bool.not_eq_true'] at h
      exact ⟨_, fixLoc_default d k (Or.inr ⟨_, hg, h⟩)⟩

/-! ## `validate_and_set_defaults` lemmas -/

theorem vsd_ok_shape (d d' : Dict) (h : validate_and_set_defaults d = Except.ok d') :
    dictGet d' "contactno" =
      some (JVal.str (validate_and_format_contact (dictGetD d "contactno" (JVal.str "")))) ∧
    (∃ s, dictGet d' "city" = some (JVal.str s) ∧ trimChars s.data ≠ []) ∧
    (∃ s, dictGet d' "country" = some (JVal.str s) ∧ trimChars s.data ≠ []) ∧
    ∀ k, k ≠ "contactno" → k ≠ "city" → k ≠ "country" → dictGet d' k = dictGet d k := by
  unfold validate_and_set_defaults at h
  cases h2 : fixLoc (dictSet d "contactno"
      (JVal.str (validate_and_format_contact
        (dictGetD d "contactno" (JVal.str ""))))) "city" with
  | error e => simp only [h2] at h; simp at h
  | ok d2 =>
    simp only [h2] at h
    cases h3 : fixLoc d2 "country" with
    | error e => simp only [h3] at h; simp at h
    | ok d3 =>
      simp only [h3, Except.ok.injEq] at h
      subst h
      obtain ⟨⟨s2, hs2g, hs2t⟩, hf2⟩ := fixLoc_ok_shape _ d2 "city" h2
      obtain ⟨⟨s3, hs3g, hs3t⟩, hf3⟩ := fixLoc_ok_shape d2 d3 "country" h3
      refine ⟨?_, ⟨s2, ?_, hs2t⟩, ⟨s3, hs3g, hs3t⟩, ?_⟩
      · rw [hf3 "contactno" (by decide), hf2 "contactno" (by decide)]
        exact dictGet_set_self d "contactno" _
      · rw [hf3 "city" (by decide)]
        exact hs2g
      · intro k hk1 hk2 hk3
        rw [hf3 k hk3, hf2 k hk2]
        exact dictGet_set_ne d "contactno" k _ (Ne.symm hk1)

theorem vsd_fixed (d : Dict) (v0 : JVal)
    (hc : dictGet d "contactno" = some (JVal.str (validate_and_format_contact v0)))
    (hcity : ∃ s, dictGet d "city" = some (JVal.str s) ∧ trimChars s.data ≠ [])
    (hcountry : ∃ s, dictGet d "country" = some (JVal.str s) ∧ trimChars s.data ≠ []) :
    validate_and_set_defaults d = Except.ok d := by
  obtain ⟨s1, hs1, ht1⟩ := hcity
  obtain ⟨s2, hs2, ht2⟩ := hcountry
  have hgd : dictGetD d "contactno" (JVal.str "") =
      JVal.str (validate_and_format_contact v0) := by
    simp [dictGetD, hc]
  have hset : dictSet d "contactno"
      (JVal.str (validate_and_format_contact (dictGetD d "contactno" (JVal.str "")))) = d := by
    rw [hgd, vfc_idem]
    exact dictSet_self d "contactno" _ hc
  unfold validate_and_set_defaults
  rw [hset, fixLoc_fixed d "city" s1 hs1 ht1]
  show (match fixLoc d "country" with
    | Except.error e => Except.error e
    | Except.ok d3 => Except.ok d3) = Except.ok d
  rw [fixLoc_fixed d "country" s2 hs2 ht2]

/-! ## `ensureKey` and `repairKeys` lemmas -/

theorem ensureKey_fixed (d : Dict) (k : String) (dflt : JVal) (h : dictHas d k = true) :
    ensureKey d k dflt = d := by
  simp [ensureKey, h]

theorem ensureKey_get_ne (d : Dict) (k k' : String) (dflt : JVal) (h : k ≠ k') :
    dictGet (ensureKey d k dflt) k' = dictGet d k' := by
  unfold ensureKey
  by_cases hh : dictHas d k
  · rw [if_pos hh]
  · rw [if_neg hh]
    exact dictGet_set_ne d k k' dflt h

theorem ensureKey_get_preserve (d : Dict) (k k' : String) (dflt : JVal) (v : JVal)
    (h : dictGet d k' = some v) : dictGet (ensureKey d k dflt) k' = some v := by
  by_cases he : k = k'
  · subst he
    rw [ensureKey_fixed d k dflt (dictHas_of_get d k v h)]
    exact h
  · rw [ensureKey_get_ne d k k' dflt he]
    exact h

theorem ensureKey_get_absent (d : Dict) (k : String) (dflt : JVal)
    (h : dictGet d k = none) : dictGet (ensureKey d k dflt) k = some dflt := by
  unfold ensureKey
  have hh : dictHas d k = false := by simp [dictHas, h]
  rw [if_neg (by simp [hh])]
  exact dictGet_set_self d k dflt

theorem foldl_ensure_preserve (fs : List String) (d : Dict) (dflt : JVal) (k : String)
    (v : JVal) (h : dictGet d k = some v) :
    dictGet (fs.foldl (fun d f => ensureKey d f dflt) d) k = some v := by
  induction fs generalizing d with
  | nil => exact h
  | cons f fs ih =>
    rw [List.foldl_cons]
    exact ih _ (ensureKey_get_preserve d f k dflt v h)

theorem foldl_ensure_not_mem (fs : List String) (d : Dict) (dflt : JVal) (k : String)
    (h : k ∉ fs) :
    dictGet (fs.foldl (fun d f => ensureKey d f dflt) d) k = dictGet d k := by
  induction fs generalizing d with
  | nil => rfl
  | cons f fs ih =>
    rw [List.foldl_cons, ih _ (fun hm => h (List.mem_cons_of_mem f hm))]
    exact ensureKey_get_ne d f k dflt (fun he => h (by rw [← he]; exact List.mem_cons_self f fs))

theorem foldl_ensure_mem_absent (fs : List String) (d : Dict) (dflt : JVal) (k : String)
    (hk : k ∈ fs) (h : dictGet d k = none) :
    dictGet (fs.foldl (fun d f => ensureKey d f dflt) d) k = some dflt := by
  induction fs generalizing d with
  | nil => simp at hk
  | cons f fs ih =>
    rw [List.foldl_cons]
    by_cases he : f = k
    · subst he
      exact foldl_ensure_preserve fs _ dflt f dflt (ensureKey_get_absent d f dflt h)
    · rcases List.mem_cons.mp hk with h1 | h1
      · exact absurd h1.symm he
      · exact ih _ h1 (by rw [ensureKey_get_ne d f k dflt he]; exact h)

theorem foldl_ensure_fixed (fs : List String) (d : Dict) (dflt : JVal)
    (h : ∀ f ∈ fs, dictHas d f = true) :
    fs.foldl (fun d f => ensureKey d f dflt) d = d := by
  induction fs with
  | nil => rfl
  | cons f fs ih =>
    rw [List.foldl_cons, ensureKey_fixed d f dflt (h f (List.mem_cons_self f fs))]
    exact ih (fun f' hf' => h f' (List.mem_cons_of_mem f hf'))

theorem repairKeys_get_preserve (d : Dict) (k : String) (v : JVal)
    (h : dictGet d k = some v) : dictGet (repairKeys d) k = some v := by
  unfold repairKeys
  apply ensureKey_get_preserve
  apply ensureKey_get_preserve
  apply ensureKey_get_preserve
  apply ensureKey_get_preserve
  exact foldl_ensure_preserve profile_fields d _ k v h

theorem repairKeys_get_missing_profile (d : Dict) (k : String) (hk : k ∈ profile_fields)
    (h : dictGet d k = none) : dictGet (repairKeys d) k = some (JVal.str "") := by
  unfold repairKeys
  apply ensureKey_get_preserve
  apply ensureKey_get_preserve
  apply ensureKey_get_preserve
  apply ensureKey_get_preserve
  exact foldl_ensure_mem_absent profile_fields d _ k hk h

theorem repairKeys_get_missing_array (d : Dict) (k : String) (hk : k ∈ array_fields)
    (h : dictGet d k = none) : dictGet (repairKeys d) k = some (JVal.arr []) := by
  have hnp : k ∉ profile_fields := by
    simp only [array_fields, List.mem_cons, List.not_mem_nil, or_false] at hk
    rcases hk with rfl | rfl | rfl | rfl <;> decide
  have h0 : dictGet (profile_fields.foldl (fun d f => ensureKey d f (JVal.str "")) d) k
      = none := by
    rw [foldl_ensure_not_mem profile_fields d _ k hnp]
    exact h
  simp only [array_fields, List.mem_cons, List.not_mem_nil, or_false] at hk
  unfold repairKeys
  rcases hk with rfl | rfl | rfl | rfl
  · apply ensureKey_get_preserve
    apply ensureKey_get_preserve
    apply ensureKey_get_preserve
    exact ensureKey_get_absent _ _ _ h0
  · apply ensureKey_get_preserve
    apply ensureKey_get_preserve
    exact ensureKey_get_absent _ _ _
      (by rw [ensureKey_get_ne _ _ _ _ (by decide)]; exact h0)
  · apply ensureKey_get_preserve
    exact ensureKey_get_absent _ _ _
      (by rw [ensureKey_get_ne _ _ _ _ (by decide), ensureKey_get_ne _ _ _ _ (by decide)]
          exact h0)
  · exact ensureKey_get_absent _ _ _
      (by rw [ensureKey_get_ne _ _ _ _ (by decide), ensureKey_get_ne _ _ _ _ (by decide),
              ensureKey_get_ne _ _ _ _ (by decide)]
          exact h0)

theorem repairKeys_has (d : Dict) (k : String) (hk : k ∈ allFields) :
    dictHas (repairKeys d) k = true := by
  cases hg : dictGet d k with
  | some v => exact dictHas_of_get _ _ _ (repairKeys_get_preserve d k v hg)
  | none =>
    simp only [allFields] at hk
    rcases List.mem_append.mp hk with h1 | h1
    · exact dictHas_of_get _ _ _ (repairKeys_get_missing_profile d k h1 hg)
    · exact dictHas_of_get _ _ _ (repairKeys_get_missing_array d k h1 hg)

theorem repairKeys_fixed (d : Dict) (h : ∀ k ∈ allFields, dictHas d k = true) :
    repairKeys d = d := by
  unfold repairKeys
  rw [foldl_ensure_fixed profile_fields d _
    (fun f hf => h f (by simp only [allFields]; exact List.mem_append.mpr (Or.inl hf)))]
  rw [ensureKey_fixed _ _ _ (h "certificates" (by decide))]
  rw [ensureKey_fixed _ _ _ (h "education" (by decide))]
  rw [ensureKey_fixed _ _ _ (h "extracurriculars" (by decide))]
  rw [ensureKey_fixed _ _ _ (h "jobs" (by decide))]

/-! ## `normalizeStep` lemmas -/

theorem normalizeStep_ok_shape (d d' : Dict) (h : normalizeStep d = Except.ok d') :
    (∀ k ∈ allFields, dictHas d' k = true) ∧
    (∃ v, dictGet d' "contactno" = some (JVal.str (validate_and_format_contact v))) ∧
    (∃ s, dictGet d' "city" = some (JVal.str s) ∧ trimChars s.data ≠ []) ∧
    (∃ s, dictGet d' "country" = some (JVal.str s) ∧ trimChars s.data ≠ []) := by
  unfold normalizeStep at h
  obtain ⟨hc, hcity, hcountry, hframe⟩ := vsd_ok_shape (repairKeys d) d' h
  refine ⟨?_, ⟨_, hc⟩, hcity, hcountry⟩
  intro k hk
  by_cases h1 : k = "contactno"
  · subst h1
    exact dictHas_of_get _ _ _ hc
  by_cases h2 : k = "city"
  · subst h2
    obtain ⟨s, hs, _⟩ := hcity
    exact dictHas_of_get _ _ _ hs
  by_cases h3 : k = "country"
  · subst h3
    obtain ⟨s, hs, _⟩ := hcountry
    exact dictHas_of_get _ _ _ hs
  · have hh := repairKeys_has d k hk
    unfold dictHas at hh ⊢
    rw [hframe k h1 h2 h3]
    exact hh

theorem normalizeStep_fixed (d d' : Dict) (h : normalizeStep d = Except.ok d') :
    normalizeStep d' = Except.ok d' := by
  obtain ⟨hall, ⟨v0, hc⟩, hcity, hcountry⟩ := normalizeStep_ok_shape d d' h
  unfold normalizeStep
  rw [repairKeys_fixed d' hall]
  exact vsd_fixed d' v0 hc hcity hcountry

theorem vsd_run (d d' : Dict) (h : validate_and_set_defaults d = Except.ok d') :
    ∃ d2, fixLoc (dictSet d "contactno"
        (JVal.str (validate_and_format_contact
          (dictGetD d "contactno" (JVal.str ""))))) "city" = Except.ok d2 ∧
      fixLoc d2 "country" = Except.ok d' := by
  unfold validate_and_set_defaults at h
  cases h2 : fixLoc (dictSet d "contactno"
      (JVal.str (validate_and_format_contact
        (dictGetD d "contactno" (JVal.str ""))))) "city" with
  | error e => simp only [h2] at h; simp at h
  | ok d2 =>
    simp only [h2] at h
    cases h3 : fixLoc d2 "country" with
    | error e => simp only [h3] at h; simp at h
    | ok d3 =>
      simp only [h3, Except.ok.injEq] at h
      subst h
      exact ⟨d2, rfl, h3⟩

theorem vsd_run_entry (d : Dict) :
    validate_and_set_defaults d =
      (match fixLoc (dictSet d "contactno"
          (JVal.str (validate_and_format_contact
            (dictGetD d "contactno" (JVal.str ""))))) "city" with
       | Except.error e => Except.error e
       | Except.ok d2 =>
         match fixLoc d2 "country" with
         | Except.error e => Except.error e
         | Except.ok d3 => Except.ok d3) := rfl

/-! ## Claim theorems -/

/-- C1: `validate_and_format_contact` first removes every non-digit
character; exactly 10 remaining digits are returned as they are, 11
remaining digits starting with `0` are returned without the leading
zero, and every other case — the empty input included — yields the empty
string.  Consequently the result is always either exactly 10 digit
characters or the empty string. -/
theorem contact_normalization_cases (s : String) :
    ((s.data.filter Char.isDigit).length = 10 →
      validate_and_format_contact (JVal.str s) = String.mk (s.data.filter Char.isDigit)) ∧
    ((s.data.filter Char.isDigit).length = 11 →
      (s.data.filter Char.isDigit).head? = some '0' →
      validate_and_format_contact (JVal.str s) =
        String.mk ((s.data.filter Char.isDigit).drop 1)) ∧
    ((s.data.filter Char.isDigit).length ≠ 10 →
      ¬((s.data.filter Char.isDigit).length = 11 ∧
        (s.data.filter Char.isDigit).head? = some '0') →
      validate_and_format_contact (JVal.str s) = "") ∧
    (validate_and_format_contact (JVal.str s) = "" ∨
      ((validate_and_format_contact (JVal.str s)).data.length = 10 ∧
        ∀ c ∈ (validate_and_format_contact (JVal.str s)).data, c.isDigit = true)) := by
  have hv : validate_and_format_contact (JVal.str s) =
      (if pyTruthy (JVal.str s) = false then ""
       else if (s.data.filter Char.isDigit).length = 10 then
         String.mk (s.data.filter Char.isDigit)
       else if (s.data.filter Char.isDigit).length = 11 ∧
           (s.data.filter Char.isDigit).head? = some '0' then
         String.mk ((s.data.filter Char.isDigit).drop 1)
       else "") := rfl
  have hdata : pyTruthy (JVal.str s) = false → s.data = [] := by
    intro hts
    simpa [pyTruthy, List.isEmpty_iff] using hts
  refine ⟨?_, ?_, ?_, vfc_cases (JVal.str s)⟩
  · intro h10
    by_cases hts : pyTruthy (JVal.str s) = false
    · rw [hdata hts] at h10
      simp at h10
    · rw [hv, if_neg hts, if_pos h10]
  · intro h11 h0
    by_cases hts : pyTruthy (JVal.str s) = false
    · rw [hdata hts] at h11
      simp at h11
    · rw [hv, if_neg hts, if_neg (by rw [h11]; decide), if_pos ⟨h11, h0⟩]
  · intro hn10 hn11
    by_cases hts : pyTruthy (JVal.str s) = false
    · rw [hv, if_pos hts]
    · rw [hv, if_neg hts, if_neg hn10, if_neg hn11]

/-- C1 witness: the spec's concrete contact numbers. -/
theorem contact_normalization_cases_inst :
    validate_and_format_contact (JVal.str "555-123-4567") = "5551234567" ∧
    validate_and_format_contact (JVal.str "05551234567") = "5551234567" ∧
    validate_and_format_contact (JVal.str "123") = "" := by
  refine ⟨?_, ?_, ?_⟩
  · rw [(contact_normalization_cases "555-123-4567").1 (by decide)]
    rfl
  · rw [(contact_normalization_cases "05551234567").2.1 (by decide) (by decide)]
    rfl
  · rw [(contact_normalization_cases "123").2.2.1 (by decide) (by decide)]

/-- C3: after a successful `validate_and_set_defaults`, the `city` and
`country` values are strings that are neither empty nor whitespace-only;
an absent, empty or whitespace-only input is replaced by the sentinel
`"-"`, and a non-blank string input is kept unchanged. -/
theorem city_country_sentinel (d d' : Dict)
    (h : validate_and_set_defaults d = Except.ok d') :
    (∃ s, dictGet d' "city" = some (JVal.str s) ∧ s ≠ "" ∧ trimChars s.data ≠ []) ∧
    (∃ s, dictGet d' "country" = some (JVal.str s) ∧ s ≠ "" ∧ trimChars s.data ≠ []) ∧
    ((dictGet d "city" = none ∨
      (∃ s, dictGet d "city" = some (JVal.str s) ∧ trimChars s.data = [])) →
      dictGet d' "city" = some (JVal.str "-")) ∧
    ((dictGet d "country" = none ∨
      (∃ s, dictGet d "country" = some (JVal.str s) ∧ trimChars s.data = [])) →
      dictGet d' "country" = some (JVal.str "-")) ∧
    (∀ s, dictGet d "city" = some (JVal.str s) → trimChars s.data ≠ [] →
      dictGet d' "city" = some (JVal.str s)) ∧
    (∀ s, dictGet d "country" = some (JVal.str s) → trimChars s.data ≠ [] →
      dictGet d' "country" = some (JVal.str s)) := by
  obtain ⟨hc, ⟨s2, hs2, ht2⟩, ⟨s3, hs3, ht3⟩, hframe⟩ := vsd_ok_shape d d' h
  obtain ⟨d2, h2, h3⟩ := vsd_run d d' h
  have frame2 := (fixLoc_ok_shape _ d2 "city" h2).2
  have frame3 := (fixLoc_ok_shape d2 d' "country" h3).2
  have hXcity : dictGet (dictSet d "contactno"
      (JVal.str (validate_and_format_contact
        (dictGetD d "contactno" (JVal.str ""))))) "city" = dictGet d "city" :=
    dictGet_set_ne d "contactno" "city" _ (by decide)
  have hXcountry : dictGet (dictSet d "contactno"
      (JVal.str (validate_and_format_contact
        (dictGetD d "contactno" (JVal.str ""))))) "country" = dictGet d "country" :=
    dictGet_set_ne d "contactno" "country" _ (by decide)
  have hd2country : dictGet d2 "country" = dictGet d "country" := by
    rw [frame2 "country" (by decide), hXcountry]
  refine ⟨⟨s2, hs2, ?_, ht2⟩, ⟨s3, hs3, ?_, ht3⟩, ?_, ?_, ?_, ?_⟩
  · intro h0
    subst h0
    exact ht2 rfl
  · intro h0
    subst h0
    exact ht3 rfl
  · intro hcase
    have hfix : fixLoc (dictSet d "contactno"
        (JVal.str (validate_and_format_contact
          (dictGetD d "contactno" (JVal.str ""))))) "city" =
        Except.ok (dictSet (dictSet d "contactno"
          (JVal.str (validate_and_format_contact
            (dictGetD d "contactno" (JVal.str ""))))) "city" (JVal.str "-")) := by
      rcases hcase with hnone | ⟨s, hsg, hst⟩
      · exact fixLoc_eq_none _ "city" (by rw [hXcity]; exact hnone)
      · exact fixLoc_blankstr _ "city" s (by rw [hXcity]; exact hsg) hst
    have hd2 : d2 = dictSet (dictSet d "contactno"
        (JVal.str (validate_and_format_contact
          (dictGetD d "contactno" (JVal.str ""))))) "city" (JVal.str "-") := by
      have := h2.symm.trans hfix
      simpa using this
    rw [frame3 "city" (by decide), hd2, dictGet_set_self]
  · intro hcase
    have hfix : fixLoc d2 "country" = Except.ok (dictSet d2 "country" (JVal.str "-")) := by
      rcases hcase with hnone | ⟨s, hsg, hst⟩
      · exact fixLoc_eq_none d2 "country" (by rw [hd2country]; exact hnone)
      · exact fixLoc_blankstr d2 "country" s (by rw [hd2country]; exact hsg) hst
    have hd3 : d' = dictSet d2 "country" (JVal.str "-") := by
      have := h3.symm.trans hfix
      simpa using this
    rw [hd3, dictGet_set_self]
  · intro s hsg hst
    have hfix : fixLoc (dictSet d "contactno"
        (JVal.str (validate_and_format_contact
          (dictGetD d "contactno" (JVal.str ""))))) "city" = Except.ok (dictSet d "contactno"
        (JVal.str (validate_and_format_contact
          (dictGetD d "contactno" (JVal.str ""))))) :=
      fixLoc_fixed _ "city" s (by rw [hXcity]; exact hsg) hst
    have hd2 : d2 = dictSet d "contactno"
        (JVal.str (validate_and_format_contact
          (dictGetD d "contactno" (JVal.str "")))) := by
      have := h2.symm.trans hfix
      simpa using this
    rw [frame3 "city" (by decide), hd2, hXcity]
    exact hsg
  · intro s hsg hst
    have hfix : fixLoc d2 "country" = Except.ok d2 :=
      fixLoc_fixed d2 "country" s (by rw [hd2country]; exact hsg) hst
    have hd3 : d' = d2 := by
      have := h3.symm.trans hfix
      simpa using this
    rw [hd3, hd2country]
    exact hsg

/-- C3 witness: on the empty record both locations end up as the
sentinel. -/
theorem city_country_sentinel_inst :
    ∃ s, dictGet [("contactno", JVal.str ""), ("city", JVal.str "-"),
      ("country", JVal.str "-")] "city" = some (JVal.str s) ∧ s ≠ "" ∧
      trimChars s.data ≠ [] :=
  (city_country_sentinel [] [("contactno", JVal.str ""), ("city", JVal.str "-"),
    ("country", JVal.str "-")] rfl).1

/-- C7: the normalization step (key repair followed by
`validate_and_set_defaults`) is idempotent: composing it with itself —
propagating a raise unchanged — equals a single run; in particular
running it on its own successful output returns that output unchanged. -/
theorem normalize_idempotent (r : Dict) :
    (match normalizeStep r with
     | Except.error e => (Except.error e : Except PyErr Dict)
     | Except.ok d' => normalizeStep d') = normalizeStep r := by
  cases h : normalizeStep r with
  | error e => rfl
  | ok d' => exact normalizeStep_fixed r d' h

/-- C9: `validate_and_set_defaults` modifies at most the keys
`contactno`, `city` and `country`: every other key keeps its value and
its presence, and no other key is added or removed. -/
theorem vsd_frame (d d' : Dict) (h : validate_and_set_defaults d = Except.ok d')
    (k : String) (h1 : k ≠ "contactno") (h2 : k ≠ "city") (h3 : k ≠ "country") :
    dictGet d' k = dictGet d k ∧ dictHas d' k = dictHas d k := by
  have hf := (vsd_ok_shape d d' h).2.2.2 k h1 h2 h3
  refine ⟨hf, ?_⟩
  unfold dictHas
  rw [hf]

/-- C9 witness: an unrelated `email` entry is untouched. -/
theorem vsd_frame_inst :
    dictGet [("email", JVal.str "x"), ("contactno", JVal.str ""), ("city", JVal.str "-"),
        ("country", JVal.str "-")] "email" = dictGet [("email", JVal.str "x")] "email" ∧
    dictHas [("email", JVal.str "x"), ("contactno", JVal.str ""), ("city", JVal.str "-"),
        ("country", JVal.str "-")] "email" = dictHas [("email", JVal.str "x")] "email" :=
  vsd_frame [("email", JVal.str "x")]
    [("email", JVal.str "x"), ("contactno", JVal.str ""), ("city", JVal.str "-"),
      ("country", JVal.str "-")] rfl "email" (by decide) (by decide) (by decide)

/-- C10: fence stripping is fixed-width slicing with no closing-fence
check: after a ```json prefix exactly the first 7 and last 3 characters
are removed, after a bare ``` prefix exactly the first 3 and last 3, so
a fenced response without a closing fence loses its final 3 content
characters (here the result no longer parses). -/
theorem fence_strip_counts :
    (∀ t : String, pyStartswith t "```json" = true →
      stripFences t = String.mk (dropRightChars (dropChars t.data 7) 3) ∧
      (stripFences t).data.length = t.data.length - 10) ∧
    (∀ t : String, pyStartswith t "```json" = false → pyStartswith t "```" = true →
      stripFences t = String.mk (dropRightChars (dropChars t.data 3) 3) ∧
      (stripFences t).data.length = t.data.length - 6) ∧
    stripFences "```json\n\x7b\"x\":1\x7d" = "\n\x7b\"x\"" ∧
    jsonParse (stripFences "```json\n\x7b\"x\":1\x7d") = none := by
  refine ⟨?_, ?_, rfl, rfl⟩
  · intro t h
    have he : stripFences t = String.mk (dropRightChars (dropChars t.data 7) 3) := by
      unfold stripFences
      rw [if_pos h]
    refine ⟨he, ?_⟩
    rw [he]
    show (dropRightChars (dropChars t.data 7) 3).length = t.data.length - 10
    simp only [dropRightChars, dropChars, List.length_take, List.length_drop]
    omega
  · intro t h1 h2
    have he : stripFences t = String.mk (dropRightChars (dropChars t.data 3) 3) := by
      unfold stripFences
      rw [if_neg (by simp [h1]), if_pos h2]
    refine ⟨he, ?_⟩
    rw [he]
    show (dropRightChars (dropChars t.data 3) 3).length = t.data.length - 6
    simp only [dropRightChars, dropChars, List.length_take, List.length_drop]
    omega

/-- C10 witness: a concrete open fence with no closing fence. -/
theorem fence_strip_counts_inst :
    stripFences "```json\n\x7b\"x\":1\x7d" =
      String.mk (dropRightChars (dropChars "```json\n\x7b\"x\":1\x7d".data 7) 3) ∧
    (stripFences "```json\n\x7b\"x\":1\x7d").data.length =
      "```json\n\x7b\"x\":1\x7d".data.length - 10 :=
  fence_strip_counts.1 "```json\n\x7b\"x\":1\x7d" (by rfl)

/-- C4: every raw response that fails strict JSON parsing after trimming
and fence stripping — `"not json"` and the empty string among them — is
absorbed without an exception into the fully-defaulted shell record:
scalars empty, `city` and `country` the sentinel `"-"`, arrays empty. -/
theorem decode_failure_yields_shell :
    (∀ raw : String, jsonParse (stripFences (pyStrip raw)) = none →
      coreDecode raw = Except.ok shellRecord) ∧
    coreDecode "not json" = Except.ok shellRecord ∧
    coreDecode "" = Except.ok shellRecord ∧
    dictGet shellRecord "firstname" = some (JVal.str "") ∧
    dictGet shellRecord "lastname" = some (JVal.str "") ∧
    dictGet shellRecord "email" = some (JVal.str "") ∧
    dictGet shellRecord "contactno" = some (JVal.str "") ∧
    dictGet shellRecord "country" = some (JVal.str "-") ∧
    dictGet shellRecord "city" = some (JVal.str "-") ∧
    dictGet shellRecord "certificates" = some (JVal.arr []) ∧
    dictGet shellRecord "education" = some (JVal.arr []) ∧
    dictGet shellRecord "extracurriculars" = some (JVal.arr []) ∧
    dictGet shellRecord "jobs" = some (JVal.arr []) := by
  refine ⟨?_, rfl, rfl, rfl, rfl, rfl, rfl, rfl, rfl, rfl, rfl, rfl, rfl⟩
  intro raw h
  unfold coreDecode
  rw [h]

/-- C4 witness: the spec's `"not json"` input. -/
theorem decode_failure_yields_shell_inst :
    coreDecode "not json" = Except.ok shellRecord :=
  decode_failure_yields_shell.1 "not json" rfl

/-- C5: a JSON object wrapped in a fenced code block — with or without
the `json` language tag — decodes successfully: the fences are stripped,
`firstname` is `"A"`, and every other declared field is present with its
default. -/
theorem decode_fenced_json_example :
    coreDecode "```json\n\x7b\"firstname\":\"A\"\x7d\n```" =
      Except.ok [("firstname", JVal.str "A"), ("lastname", JVal.str ""),
        ("email", JVal.str ""), ("contactno", JVal.str ""), ("country", JVal.str "-"),
        ("city", JVal.str "-"), ("certificates", JVal.arr []), ("education", JVal.arr []),
        ("extracurriculars", JVal.arr []), ("jobs", JVal.arr [])] ∧
    coreDecode "```\n\x7b\"firstname\":\"A\"\x7d\n```" =
      Except.ok [("firstname", JVal.str "A"), ("lastname", JVal.str ""),
        ("email", JVal.str ""), ("contactno", JVal.str ""), ("country", JVal.str "-"),
        ("city", JVal.str "-"), ("certificates", JVal.arr []), ("education", JVal.arr []),
        ("extracurriculars", JVal.arr []), ("jobs", JVal.arr [])] ∧
    stripFences (pyStrip "```json\n\x7b\"firstname\":\"A\"\x7d\n```") =
      "\n\x7b\"firstname\":\"A\"\x7d\n" :=
  ⟨rfl, rfl, rfl⟩

/-- One unfolding of the `preprocess_resume_text` line loop. -/
theorem keepLines_cons (flag : Bool) (line : List Char) (rest : List (List Char)) :
    keepLines flag (line :: rest) =
      (if contactMarkers.any
          (fun k => listContainsSub (trimChars (line.map Char.toLower)) k.data) then
        line :: keepLines flag rest
      else if importantSections.any
          (fun k => listContainsSub (trimChars (line.map Char.toLower)) k.data) then
        line :: keepLines true rest
      else if flag && !(trimChars line).isEmpty then
        line :: keepLines flag rest
      else
        keepLines (if (trimChars line).isEmpty then false else flag) rest) := rfl

/-- C6: the preprocessing loop scans lines with a relevance flag that
starts false: a contact-marker line is kept whatever the flag, a blank
line is dropped and resets the flag to false, and on the spec's example
the email line and the three work-experience lines are kept while the
unrelated lines before the header and after the blank line are not. -/
theorem preprocess_behavior :
    (∀ (flag : Bool) (line : List Char) (rest : List (List Char)),
      contactMarkers.any
          (fun k => listContainsSub (trimChars (line.map Char.toLower)) k.data) = true →
      keepLines flag (line :: rest) = line :: keepLines flag rest) ∧
    (∀ (flag : Bool) (line : List Char) (rest : List (List Char)),
      trimChars line = [] →
      keepLines flag (line :: rest) = keepLines false rest) ∧
    preprocess_resume_text
        "Random Hobby Line\njohn@example.com\nWork Experience\nJob A\nJob B\nJob C\n\nIrrelevant Tail" =
      "john@example.com\nWork Experience\nJob A\nJob B\nJob C" := by
  refine ⟨?_, ?_, rfl⟩
  · intro flag line rest h
    rw [keepLines_cons, if_pos h]
  · intro flag line rest h
    have hll : trimChars (line.map Char.toLower) = [] := trimChars_map_toLower_eq_nil line h
    rw [keepLines_cons, hll, h, if_neg (by decide), if_neg (by decide)]
    simp

/-- C6 witness: a line with an `@` marker is kept even with the flag
still false. -/
theorem preprocess_behavior_inst :
    keepLines false ["john@example.com".data] =
      "john@example.com".data :: keepLines false [] :=
  preprocess_behavior.1 false "john@example.com".data [] (by decide)

/-- C8: the pipeline absorbs every failure: whatever the extraction and
gateway outcomes, the returned record carries every declared field (an
internal exception only adds an `error` field), and a gateway error
still hands the decode chain the two-brace string. -/
theorem pipeline_total_wellshaped (extraction gateway : Except PyErr String) :
    (allFields.all fun k => dictHas (query_resume_fast extraction gateway) k) = true ∧
    ∀ e : PyErr, query_completion_optimized (Except.error e) = "\x7b\x7d" := by
  refine ⟨?_, fun e => rfl⟩
  cases extraction with
  | error e =>
    have hq : query_resume_fast (Except.error e) gateway = errorShell e := rfl
    rw [hq]
    cases e <;> decide
  | ok txt =>
    cases hcd : coreDecode (query_completion_optimized gateway) with
    | ok resume =>
      have hq : query_resume_fast (Except.ok txt) gateway = resume := by
        unfold query_resume_fast
        simp only [hcd]
      rw [hq]
      unfold coreDecode at hcd
      cases hp : jsonParse (stripFences (pyStrip (query_completion_optimized gateway))) with
      | none =>
        simp only [hp, Except.ok.injEq] at hcd
        subst hcd
        decide
      | some v =>
        simp only [hp] at hcd
        cases v with
        | obj entries =>
          obtain ⟨hall, _, _, _⟩ := normalizeStep_ok_shape entries resume hcd
          rw [List.all_eq_true]
          exact fun k hk => hall k hk
        | null => simp at hcd
        | bool b => simp at hcd
        | num n => simp at hcd
        | str s => simp at hcd
        | arr xs => simp at hcd
    | error e =>
      have hq : query_resume_fast (Except.ok txt) gateway = errorShell e := by
        unfold query_resume_fast
        simp only [hcd]
      rw [hq]
      cases e <;> decide

/-- C2 counterexample: the step is not total.  On a record whose `city`
is the number `1` the code calls `.strip()` on an `int` and raises
`AttributeError`; and on the empty record the missing `city` ends as the
sentinel `"-"`, not the empty string the claim's parenthetical
describes. -/
theorem normalize_totality_fails :
    normalizeStep [("city", JVal.num 1)] = Except.error PyErr.attributeError ∧
    normalizeStep [] = Except.ok shellRecord ∧
    dictGet shellRecord "city" = some (JVal.str "-") :=
  ⟨rfl, rfl, rfl⟩

/-- C2 amended: on every record whose `city` and `country` entries, when
present and truthy, are strings, the normalization step (key repair plus
`validate_and_set_defaults`) never raises and its output contains every
declared field; the scalar fields `firstname`, `lastname`, `email` and
`contactno` missing from the input are defaulted to the empty string,
missing `city` and `country` end as the sentinel `"-"`, and missing
array fields are defaulted to the empty sequence.  The repair operates
on the parsed record itself, so it runs even when the upstream decode
succeeded. -/
theorem normalize_totality_amended (d : Dict)
    (hcity : strOrFalsy (dictGet d "city") = true)
    (hcountry : strOrFalsy (dictGet d "country") = true) :
    ∃ d', normalizeStep d = Except.ok d' ∧
      (∀ k ∈ allFields, dictHas d' k = true) ∧
      (dictGet d "firstname" = none → dictGet d' "firstname" = some (JVal.str "")) ∧
      (dictGet d "lastname" = none → dictGet d' "lastname" = some (JVal.str "")) ∧
      (dictGet d "email" = none → dictGet d' "email" = some (JVal.str "")) ∧
      (dictGet d "contactno" = none → dictGet d' "contactno" = some (JVal.str "")) ∧
      (dictGet d "city" = none → dictGet d' "city" = some (JVal.str "-")) ∧
      (dictGet d "country" = none → dictGet d' "country" = some (JVal.str "-")) ∧
      (dictGet d "certificates" = none → dictGet d' "certificates" = some (JVal.arr [])) ∧
      (dictGet d "education" = none → dictGet d' "education" = some (JVal.arr [])) ∧
      (dictGet d "extracurriculars" = none →
        dictGet d' "extracurriculars" = some (JVal.arr [])) ∧
      (dictGet d "jobs" = none → dictGet d' "jobs" = some (JVal.arr [])) := by
  have hrcity : strOrFalsy (dictGet (repairKeys d) "city") = true := by
    cases hg : dictGet d "city" with
    | none =>
      rw [repairKeys_get_missing_profile d "city" (by decide) hg]
      rfl
    | some v =>
      rw [repairKeys_get_preserve d "city" v hg]
      rw [hg] at hcity
      exact hcity
  have hrcountry : strOrFalsy (dictGet (repairKeys d) "country") = true := by
    cases hg : dictGet d "country" with
    | none =>
      rw [repairKeys_get_missing_profile d "country" (by decide) hg]
      rfl
    | some v =>
      rw [repairKeys_get_preserve d "country" v hg]
      rw [hg] at hcountry
      exact hcountry
  have hXcity : dictGet (dictSet (repairKeys d) "contactno"
      (JVal.str (validate_and_format_contact
        (dictGetD (repairKeys d) "contactno" (JVal.str ""))))) "city" =
      dictGet (repairKeys d) "city" :=
    dictGet_set_ne _ "contactno" "city" _ (by decide)
  obtain ⟨d2, h2⟩ := fixLoc_ok_of (dictSet (repairKeys d) "contactno"
      (JVal.str (validate_and_format_contact
        (dictGetD (repairKeys d) "contactno" (JVal.str ""))))) "city"
    (by rw [hXcity]; exact hrcity)
  have frame2 := (fixLoc_ok_shape _ d2 "city" h2).2
  have hd2country : dictGet d2 "country" = dictGet (repairKeys d) "country" := by
    rw [frame2 "country" (by decide)]
    exact dictGet_set_ne _ "contactno" "country" _ (by decide)
  obtain ⟨d3, h3⟩ := fixLoc_ok_of d2 "country" (by rw [hd2country]; exact hrcountry)
  have frame3 := (fixLoc_ok_shape d2 d3 "country" h3).2
  have hstep : normalizeStep d = Except.ok d3 := by
    unfold normalizeStep
    rw [vsd_run_entry (repairKeys d)]
    simp only [h2, h3]
  obtain ⟨hall, _, _, _⟩ := normalizeStep_ok_shape d d3 hstep
  refine ⟨d3, hstep, hall, ?_, ?_, ?_, ?_, ?_, ?_, ?_, ?_, ?_, ?_⟩
  · intro hg
    rw [frame3 "firstname" (by decide), frame2 "firstname" (by decide),
      dictGet_set_ne _ "contactno" "firstname" _ (by decide),
      repairKeys_get_missing_profile d "firstname" (by decide) hg]
  · intro hg
    rw [frame3 "lastname" (by decide), frame2 "lastname" (by decide),
      dictGet_set_ne _ "contactno" "lastname" _ (by decide),
      repairKeys_get_missing_profile d "lastname" (by decide) hg]
  · intro hg
    rw [frame3 "email" (by decide), frame2 "email" (by decide),
      dictGet_set_ne _ "contactno" "email" _ (by decide),
      repairKeys_get_missing_profile d "email" (by decide) hg]
  · intro hg
    have hr : dictGet (repairKeys d) "contactno" = some (JVal.str "") :=
      repairKeys_get_missing_profile d "contactno" (by decide) hg
    rw [frame3 "contactno" (by decide), frame2 "contactno" (by decide), dictGet_set_self]
    simp only [dictGetD, hr, Option.getD_some]
    rfl
  · intro hg
    have hXc : dictGet (dictSet (repairKeys d) "contactno"
        (JVal.str (validate_and_format_contact
          (dictGetD (repairKeys d) "contactno" (JVal.str ""))))) "city" =
        some (JVal.str "") := by
      rw [hXcity]
      exact repairKeys_get_missing_profile d "city" (by decide) hg
    have hfix := fixLoc_default _ "city" (Or.inr ⟨JVal.str "", hXc, rfl⟩)
    have h' := h2.symm.trans hfix
    simp only [Except.ok.injEq] at h'
    rw [frame3 "city" (by decide), h', dictGet_set_self]
  · intro hg
    have hd2c : dictGet d2 "country" = some (JVal.str "") := by
      rw [hd2country]
      exact repairKeys_get_missing_profile d "country" (by decide) hg
    have hfix := fixLoc_default d2 "country" (Or.inr ⟨JVal.str "", hd2c, rfl⟩)
    have h' := h3.symm.trans hfix
    simp only [Except.ok.injEq] at h'
    rw [h', dictGet_set_self]
  · intro hg
    rw [frame3 "certificates" (by decide), frame2 "certificates" (by decide),
      dictGet_set_ne _ "contactno" "certificates" _ (by decide),
      repairKeys_get_missing_array d "certificates" (by decide) hg]
  · intro hg
    rw [frame3 "education" (by decide), frame2 "education" (by decide),
      dictGet_set_ne _ "contactno" "education" _ (by decide),
      repairKeys_get_missing_array d "education" (by decide) hg]
  · intro hg
    rw [frame3 "extracurriculars" (by decide), frame2 "extracurriculars" (by decide),
      dictGet_set_ne _ "contactno" "extracurriculars" _ (by decide),
      repairKeys_get_missing_array d "extracurriculars" (by decide) hg]
  · intro hg
    rw [frame3 "jobs" (by decide), frame2 "jobs" (by decide),
      dictGet_set_ne _ "contactno" "jobs" _ (by decide),
      repairKeys_get_missing_array d "jobs" (by decide) hg]

/-- C2 amended witness: the empty record satisfies the hypotheses and
every field of its normalization is defaulted. -/
theorem normalize_totality_amended_inst :
    ∃ d', normalizeStep [] = Except.ok d' ∧
      (∀ k ∈ allFields, dictHas d' k = true) ∧
      (dictGet ([] : Dict) "firstname" = none →
        dictGet d' "firstname" = some (JVal.str "")) ∧
      (dictGet ([] : Dict) "lastname" = none →
        dictGet d' "lastname" = some (JVal.str "")) ∧
      (dictGet ([] : Dict) "email" = none → dictGet d' "email" = some (JVal.str "")) ∧
      (dictGet ([] : Dict) "contactno" = none →
        dictGet d' "contactno" = some (JVal.str "")) ∧
      (dictGet ([] : Dict) "city" = none → dictGet d' "city" = some (JVal.str "-")) ∧
      (dictGet ([] : Dict) "country" = none →
        dictGet d' "country" = some (JVal.str "-")) ∧
      (dictGet ([] : Dict) "certificates" = none →
        dictGet d' "certificates" = some (JVal.arr [])) ∧
      (dictGet ([] : Dict) "education" = none →
        dictGet d' "education" = some (JVal.arr [])) ∧
      (dictGet ([] : Dict) "extracurriculars" = none →
        dictGet d' "extracurriculars" = some (JVal.arr [])) ∧
      (dictGet ([] : Dict) "jobs" = none → dictGet d' "jobs" = some (JVal.arr [])) :=
  normalize_totality_amended [] rfl rfl

end ResumeParser
